import Mathlib

/-!
# Ragetrack server/client core: shallow embedding and verification

This file embeds the game-rule core of the Ragetrack capture-the-flag
server (`src/server/src/gameLogic.js`, `src/server/src/playerManager.js`,
`src/server/src/physicsWorld.js`, `src/shared/constants.js`) and the
client reconciler (`src/client/src/gameplay/car.js`), and proves or
refutes the frozen claims about them.

Conventions of the embedding:
* JS numbers are modelled as rationals (`ℚ`); all game-rule arithmetic in
  the sources is exact on the values we consider.
* `Math.sqrt(e) < r` with `e, r ≥ 0` is embedded as `e < r^2`
  (squaring both sides of the comparison; equivalent since `sqrt` is
  monotone and both sides are nonnegative).
* JS `Map`/`Set` collections are association lists / duplicate-free lists.
* Socket emissions are collected in an explicit event list.
* `Date.now()` values are passed in as explicit `now : ℚ` parameters.
-/

namespace Ragetrack

/-- Shared constants (`src/shared/constants.js`, `GAME`). -/
def RESPAWN_DELAY : ℚ := 5

/-- Constant `GAME.INVINCIBILITY_DURATION` (seconds). -/
def INVINCIBILITY_DURATION : ℚ := 2

/-- Constant `GAME.WIN_SCORE`. -/
def WIN_SCORE : ℕ := 3

/-- Constant `GAME.MIN_PLAYERS`. -/
def MIN_PLAYERS : ℕ := 2

/-- Constant `GAME.MAX_PLAYERS`. -/
def MAX_PLAYERS : ℕ := 10

/-- Constant `PHYSICS.FIXED_TIMESTEP` (seconds). -/
def FIXED_TIMESTEP : ℚ := 1 / 60

/-- Constant `PHYSICS.MAX_SUBSTEPS`. -/
def MAX_SUBSTEPS : ℕ := 10

/-- Constant `PHYSICS.DEATH_THRESHOLD` (Y position below which a player is eliminated). -/
def DEATH_THRESHOLD : ℚ := -50

/-- Constant `NETWORK.TICK_RATE` (server updates per second). -/
def TICK_RATE : ℕ := 60

/-- The tick interval in milliseconds (`1000 / targetFPS` in `startGameLoop`). -/
def tickIntervalMs : ℚ := 1000 / 60

/-- A 3-D vector with rational components. -/
structure Vec3 where
  x : ℚ
  y : ℚ
  z : ℚ
  deriving DecidableEq, Repr

/-- The zero vector (used for the zeroed linear/angular velocity on respawn). -/
def vzero : Vec3 := ⟨0, 0, 0⟩

/-- Squared 3-D distance between two points, the square of the
`Math.sqrt((ax-bx)**2 + (ay-by)**2 + (az-bz)**2)` expression used in
`handleFlagPickup` and `checkFlagCapture`. -/
def dist3Sq (a b : Vec3) : ℚ :=
  (a.x - b.x) * (a.x - b.x) + (a.y - b.y) * (a.y - b.y) + (a.z - b.z) * (a.z - b.z)

/-- Squared horizontal (X/Z-plane) distance between two points. -/
def distXZSq (a b : Vec3) : ℚ :=
  (a.x - b.x) * (a.x - b.x) + (a.z - b.z) * (a.z - b.z)

/-- The two teams. -/
inductive Team where
  | red
  | blue
  deriving DecidableEq, Repr

/-- The enemy team (`player.team === 'red' ? 'blue' : 'red'`). -/
def Team.other : Team → Team
  | .red => .blue
  | .blue => .red

/-- A spawn point from the map data (`position`, `rotation`). -/
structure Spawn where
  pos : Vec3
  rot : Vec3
  deriving DecidableEq, Repr

/-- The parts of `mapData` the game rules read: flag home positions and
per-team spawn point lists. -/
structure MapData where
  flagHomeRed : Vec3
  flagHomeBlue : Vec3
  spawnsRed : List Spawn
  spawnsBlue : List Spawn
  deriving DecidableEq, Repr

/-- Accessor for `mapData.flags[team].position`. -/
def MapData.flagHome (m : MapData) : Team → Vec3
  | .red => m.flagHomeRed
  | .blue => m.flagHomeBlue

/-- Accessor for `mapData.spawnPoints[team]`. -/
def MapData.spawnPoints (m : MapData) : Team → List Spawn
  | .red => m.spawnsRed
  | .blue => m.spawnsBlue

/-- One flag's server state (`this.flags[team]`): a nullable position and a
nullable carrier id. -/
structure Flag where
  position : Option Vec3
  carriedBy : Option String
  deriving DecidableEq, Repr

/-- Both flags (`this.flags`). -/
structure Flags where
  red : Flag
  blue : Flag
  deriving DecidableEq, Repr

/-- Read a flag by team. -/
def Flags.get (f : Flags) : Team → Flag
  | .red => f.red
  | .blue => f.blue

/-- Replace a flag by team. -/
def Flags.set (f : Flags) : Team → Flag → Flags
  | .red, fl => { f with red := fl }
  | .blue, fl => { f with blue := fl }

/-- Both scores (`this.scores`). -/
structure Scores where
  red : ℕ
  blue : ℕ
  deriving DecidableEq, Repr

/-- Read a score by team. -/
def Scores.get (s : Scores) : Team → ℕ
  | .red => s.red
  | .blue => s.blue

/-- Increment a team's score (`this.scores[player.team]++`). -/
def Scores.incr (s : Scores) : Team → Scores
  | .red => { s with red := s.red + 1 }
  | .blue => { s with blue := s.blue + 1 }

/-- A player record as kept by `PlayerManager` plus the car state the rules
read: the car's physics pose readback (`car.getPosition()`), its velocity
state, and the `car.hasFlag` handling modifier. -/
structure Player where
  id : String
  team : Team
  pos : Vec3
  rot : Vec3
  vel : Vec3
  angvel : Vec3
  hasFlag : Bool
  carHasFlag : Bool
  eliminated : Bool
  invincibleUntil : ℚ
  respawnTime : ℚ
  deriving DecidableEq, Repr

/-- Match state enum (`this.gameState`). -/
inductive GState where
  | lobby
  | waiting
  | playing
  | ended
  deriving DecidableEq, Repr

/-- A socket emission observable by clients. -/
inductive Event where
  | errorMsg (sid : String)
  | playerIdMsg (sid pid : String)
  | gameStateMsg
  | scoreUpdate (s : Scores)
  | gameEnd (winner : Option Team) (s : Scores)
  | eliminatedTo (sid : String)
  deriving DecidableEq, Repr

/-- The `GameServer` state read and written by the embedded handlers.
`mapData` is total here: every embedded handler that dereferences
`this.mapData` is only reached in-match, after `setMap` has run.
The `PlayerManager.teams` arrays (used only for team assignment at game
start) are not modelled. -/
structure Server where
  gameState : GState
  players : List (String × String)
  waitingPlayers : List String
  readyPlayers : List String
  mapData : MapData
  scores : Scores
  flags : Flags
  pm : List Player
  deriving DecidableEq, Repr

/-- Lookup `this.playerManager.getPlayer(playerId)` — `Map.get` on the player map,
modelled as lookup by id in the player list. -/
def getPlayer (pm : List Player) (pid : String) : Option Player :=
  pm.find? (fun p => p.id = pid)

/-- Apply an update to the player with the given id (the JS code mutates the
looked-up record in place). -/
def updatePlayer (pm : List Player) (pid : String) (f : Player → Player) : List Player :=
  pm.map (fun p => if p.id = pid then f p else p)

/-- Lookup `this.players.get(socketId)`. -/
def lookupSocket (ps : List (String × String)) (sid : String) : Option String :=
  (ps.find? (fun q => q.fst = sid)).map Prod.snd

/-- Handler `GameServer.handleJoinGame` (`gameLogic.js`): reject when a game is in
progress; ignore a duplicate join; otherwise register the socket, assign it
its socket id as player id, send `playerId`, and broadcast the game state. -/
def handleJoinGame (s : Server) (sid : String) : Server × List Event :=
  if s.gameState = .playing then
    (s, [.errorMsg sid])
  else if sid ∈ s.waitingPlayers then
    (s, [])
  else
    ({ s with
        waitingPlayers := s.waitingPlayers ++ [sid]
        players := s.players ++ [(sid, sid)] },
     [.playerIdMsg sid sid, .gameStateMsg])

/-- Handler `GameServer.handleFlagPickup` (`gameLogic.js`): a pickup succeeds iff the
player exists, is not eliminated, does not already carry a flag, is on the
other team, the flag has a position and no carrier, and the 3-D distance to
the flag is below the pickup radius 3. On success the player becomes the
carrier (player and car flag markers set, flag `carriedBy` set). -/
def handleFlagPickup (s : Server) (pid : String) (flagTeam : Team) : Server × Bool :=
  match getPlayer s.pm pid with
  | none => (s, false)
  | some p =>
    if p.eliminated ∨ p.hasFlag then (s, false)
    else if p.team = flagTeam then (s, false)
    else
      let flag := s.flags.get flagTeam
      match flag.position with
      | none => (s, false)
      | some fp =>
        if flag.carriedBy ≠ none then (s, false)
        else if dist3Sq p.pos fp < 3 * 3 then
          ({ s with
              pm := updatePlayer s.pm pid
                (fun q => { q with hasFlag := true, carHasFlag := true })
              flags := s.flags.set flagTeam { flag with carriedBy := some pid } },
           true)
        else (s, false)

/-- Handler `GameServer.handleFlagDrop` (`gameLogic.js`): only acts when the player
exists and still has `hasFlag` set; finds the flag whose `carriedBy` is this
player, clears both carry markers, and resets the flag position to its map
home. -/
def handleFlagDrop (s : Server) (pid : String) : Server :=
  match getPlayer s.pm pid with
  | none => s
  | some p =>
    if ¬ p.hasFlag then s
    else
      let flagTeam : Option Team :=
        if s.flags.red.carriedBy = some pid then some .red
        else if s.flags.blue.carriedBy = some pid then some .blue
        else none
      match flagTeam with
      | none => s
      | some ft =>
        { s with
            pm := updatePlayer s.pm pid
              (fun q => { q with hasFlag := false, carHasFlag := false })
            flags := s.flags.set ft
              { carriedBy := none, position := some (s.mapData.flagHome ft) } }

/-- Handler `GameServer.endGame` (`gameLogic.js`): set state to ended and emit
`gameEnd` (the delayed `resetGame` timer is a separate event). -/
def endGame (s : Server) (winner : Option Team) : Server × List Event :=
  ({ s with gameState := .ended }, [.gameEnd winner s.scores])

/-- Handler `GameServer.checkFlagCapture` (`gameLogic.js`, lines 321-362): the player
must exist, have `hasFlag`, not be eliminated, be the carrier of the enemy
flag, the team's spawn list must be nonempty, and the full 3-D distance from
the car to the team's first spawn point must be below the capture radius 5.
On capture: increment the team score, run `handleFlagDrop`, re-set the enemy
flag position to its home, then either end the game (score reached
`WIN_SCORE`) or emit `scoreUpdate`. Returns the final state, the emissions,
and whether a capture happened. -/
def checkFlagCapture (s : Server) (pid : String) : Server × List Event × Bool :=
  match getPlayer s.pm pid with
  | none => (s, [], false)
  | some p =>
    if ¬ p.hasFlag ∨ p.eliminated then (s, [], false)
    else
      let enemyTeam := p.team.other
      let flag := s.flags.get enemyTeam
      if flag.carriedBy ≠ some pid then (s, [], false)
      else
        match s.mapData.spawnPoints p.team with
        | [] => (s, [], false)
        | base :: _ =>
          if dist3Sq p.pos base.pos < 5 * 5 then
            let s1 := { s with scores := s.scores.incr p.team }
            let s2 := handleFlagDrop s1 pid
            let s3 := { s2 with
              flags := s2.flags.set enemyTeam
                { s2.flags.get enemyTeam with
                    position := some (s2.mapData.flagHome enemyTeam) } }
            if WIN_SCORE ≤ s3.scores.get p.team then
              let r := endGame s3 (some p.team)
              (r.fst, r.snd, true)
            else
              (s3, [.scoreUpdate s3.scores], true)
          else (s, [], false)

/-- Result of `PlayerManager.eliminatePlayer` (`playerManager.js`, lines
124-138): `noop` when the player is missing or already eliminated,
`dropped` when the player was carrying a flag, `plainElim` otherwise. -/
inductive ElimRes where
  | noop
  | dropped
  | plainElim
  deriving DecidableEq, Repr

/-- The mutation `PlayerManager.eliminatePlayer` performs on the player
record: mark eliminated, set the respawn deadline to
`Date.now() + GAME.RESPAWN_DELAY * 1000`, and clear `hasFlag` if carrying.
Note it does not touch `car.hasFlag` and does not clear the flag's
`carriedBy`. -/
def elimUpdate (p : Player) (now : ℚ) : Player :=
  { p with
      eliminated := true
      respawnTime := now + RESPAWN_DELAY * 1000
      hasFlag := false }

/-- Operation `PlayerManager.eliminatePlayer` on the player list. -/
def eliminatePlayer (pm : List Player) (pid : String) (now : ℚ) :
    List Player × ElimRes :=
  match getPlayer pm pid with
  | none => (pm, .noop)
  | some p =>
    if p.eliminated then (pm, .noop)
    else
      (updatePlayer pm pid (fun q => elimUpdate q now),
       if p.hasFlag then .dropped else .plainElim)

/-- The mutation `PlayerManager.respawnPlayer` performs once a spawn point is
chosen: teleport the car (`car.respawn`: set position and rotation, zero
linear and angular velocity), clear `eliminated`, and set invincibility to
`Date.now() + GAME.INVINCIBILITY_DURATION * 1000`. -/
def respawnUpdate (p : Player) (sp : Spawn) (now : ℚ) : Player :=
  { p with
      pos := sp.pos
      rot := sp.rot
      vel := vzero
      angvel := vzero
      eliminated := false
      invincibleUntil := now + INVINCIBILITY_DURATION * 1000 }

/-- One player's pass through `PlayerManager.update` (`playerManager.js`,
lines 84-122). `newPos` is the car pose read back after `car.update` and the
physics step (the physics engine is external); `choice` selects the random
spawn index (`Math.floor(Math.random() * spawns.length)`). The fall check
eliminates when `position.y < DEATH_THRESHOLD`; the respawn check fires when
`eliminated`, `respawnTime > 0`, and `currentTime >= respawnTime`, and does
nothing if the team's spawn list is empty (`respawnPlayer` early-returns). -/
def pmUpdatePlayer (p : Player) (now : ℚ) (newPos : Vec3) (spawns : List Spawn)
    (choice : ℕ) : Player :=
  let p1 := { p with pos := newPos }
  let p2 :=
    if p1.pos.y < DEATH_THRESHOLD ∧ ¬ p1.eliminated then elimUpdate p1 now else p1
  if p2.eliminated ∧ 0 < p2.respawnTime ∧ p2.respawnTime ≤ now then
    match spawns[choice % spawns.length]? with
    | none => p2
    | some sp => respawnUpdate p2 sp now
  else p2

/-- Handler `GameServer.handlePlayerFall` (`gameLogic.js`, lines 257-270): ignore
unless playing and the socket maps to a player; eliminate the player; if
`eliminatePlayer` reported a dropped flag, run `handleFlagDrop`; notify the
fallen player's socket. -/
def handlePlayerFall (s : Server) (sid : String) (now : ℚ) : Server × List Event :=
  if s.gameState ≠ .playing then (s, [])
  else
    match lookupSocket s.players sid with
    | none => (s, [])
    | some pid =>
      let r := eliminatePlayer s.pm pid now
      let s1 := { s with pm := r.fst }
      let s2 := if r.snd = .dropped then handleFlagDrop s1 pid else s1
      (s2, [.eliminatedTo sid])

/-- Handler `GameServer.checkGameEnd` (`gameLogic.js`): end the game (winner `none`)
when fewer than two non-eliminated players remain. -/
def checkGameEnd (s : Server) : Server × List Event :=
  if (s.pm.filter (fun p => ¬ p.eliminated)).length < 2 then endGame s none
  else (s, [])

/-- Handler `GameServer.handleDisconnection` (`gameLogic.js`): if the socket had
joined, remove it from the waiting and ready sets, remove the player record,
remove the socket mapping, and re-check the end condition when playing;
always broadcast the lobby state. Note: no flag drop happens here. -/
def handleDisconnection (s : Server) (sid : String) : Server × List Event :=
  match lookupSocket s.players sid with
  | none => (s, [.gameStateMsg])
  | some pid =>
    let s1 := { s with
      waitingPlayers := s.waitingPlayers.erase sid
      readyPlayers := s.readyPlayers.erase sid
      pm := s.pm.filter (fun p => p.id ≠ pid)
      players := s.players.filter (fun q => q.fst ≠ sid) }
    let r := if s1.gameState = .playing then checkGameEnd s1 else (s1, [])
    (r.fst, r.snd ++ [.gameStateMsg])

/-!
## Physics accumulator (`src/server/src/physicsWorld.js`, `PhysicsWorld.update`)

Both server revisions contain the same loop:
```
this.accumulator += deltaTime;
while (this.accumulator >= PHYSICS.FIXED_TIMESTEP) {
  this.world.step();
  this.accumulator -= PHYSICS.FIXED_TIMESTEP;
}
```
`runAccumulator` is that `while` loop: it returns the number of
`world.step()` calls executed and the final accumulator value.
-/

/-- The `while (accumulator >= FIXED_TIMESTEP)` loop of
`PhysicsWorld.update`: count of `world.step()` calls and final accumulator. -/
def runAccumulator (acc : ℚ) : ℕ × ℚ :=
  if h : FIXED_TIMESTEP ≤ acc then
    let r := runAccumulator (acc - FIXED_TIMESTEP)
    (r.fst + 1, r.snd)
  else (0, acc)
  termination_by (⌊acc * 60⌋).toNat
  decreasing_by
    have h60 : (1 : ℚ) ≤ acc * 60 := by
      have := mul_le_mul_of_nonneg_right h (by norm_num : (0 : ℚ) ≤ 60)
      simpa [FIXED_TIMESTEP] using this
    have hfl : (1 : ℤ) ≤ ⌊acc * 60⌋ := by
      exact_mod_cast Int.le_floor.2 (by exact_mod_cast h60)
    have heq : ⌊(acc - FIXED_TIMESTEP) * 60⌋ = ⌊acc * 60⌋ - 1 := by
      have : (acc - FIXED_TIMESTEP) * 60 = acc * 60 - (1 : ℤ) := by
        simp [FIXED_TIMESTEP]
        ring
      rw [this, Int.floor_sub_int]
    rw [heq]
    omega

/-- Operation `PhysicsWorld.update(deltaTime)` from a given accumulator value:
`accumulator += deltaTime` followed by the fixed-timestep loop. -/
def physicsUpdate (acc delta : ℚ) : ℕ × ℚ :=
  runAccumulator (acc + delta)

/-!
## Server tick loop timestamps (`GameServer.startGameLoop`, newer revision)

The newer `gameLogic.js` revision keeps a monotonic server clock:
`serverTick += 1; serverTickMs += interval` on every timer callback, and
stamps every per-player state record with `t = serverTickMs` before
broadcasting. Wall-clock `now` is only used for the physics `deltaTime`.
-/

/-- The loop-scheduler state of `GameServer` read by the tick callback. -/
structure LoopState where
  serverTick : ℕ
  serverTickMs : ℚ
  lastUpdate : ℚ
  gameState : GState
  deriving DecidableEq, Repr

/-- The unconditional clock bookkeeping at the top of each tick callback:
`lastUpdate = now` (wall clock, feeds only the physics `deltaTime`),
`serverTick += 1`, `serverTickMs += interval`. -/
def tickAdvance (s : LoopState) (now : ℚ) : LoopState :=
  { s with
      lastUpdate := now
      serverTick := s.serverTick + 1
      serverTickMs := s.serverTickMs + tickIntervalMs }

/-- One tick callback of `startGameLoop` restricted to its clock/broadcast
behaviour: advance the clocks, and, while playing, broadcast a snapshot
stamped `t = serverTickMs`. Returns the stamped timestamp when a broadcast
happened. -/
def tickStep (s : LoopState) (now : ℚ) : LoopState × Option ℚ :=
  let s1 := tickAdvance s now
  if s1.gameState = .playing then (s1, some s1.serverTickMs) else (s1, none)

/-- Run the tick callback once per entry of `nows` (the wall-clock values at
each timer firing), collecting the broadcast timestamps in order. -/
def runTicks (s : LoopState) (nows : List ℚ) : LoopState × List ℚ :=
  match nows with
  | [] => (s, [])
  | n :: rest =>
    let r := tickStep s n
    let r2 := runTicks r.fst rest
    (r2.fst, (r.snd.toList) ++ r2.snd)

/-!
## Lobby / match-start transition system (`GameServer`)

A focused model of the match state machine driven by `handleJoinGame`,
`handlePlayerReady`, `handleDisconnection` and the two timers
(`startGame`'s 2-second delayed body, `endGame`'s delayed `resetGame`).
`pending` counts outstanding `startGame` timers. The `disconnect` event
carries the outcome of `checkGameEnd`'s active-player test as an abstract
boolean, since this model does not track eliminations; `checkGameEnd` can
only move `playing` to `ended`, never into `playing`.
-/

/-- Lobby-level server state. -/
structure Lobby where
  gameState : GState
  waiting : List String
  ready : List String
  hasMap : Bool
  pending : ℕ
  deriving DecidableEq, Repr

/-- The initial server state (`GameServer` constructor), with the map either
loaded or not. -/
def initLobby (hasMap : Bool) : Lobby :=
  { gameState := .lobby, waiting := [], ready := [], hasMap := hasMap, pending := 0 }

/-- External events driving the lobby machine. -/
inductive LEv where
  | join (sid : String)
  | readyToggle (sid : String)
  | disconnect (sid : String) (endsGame : Bool)
  | startFire
  | resetFire
  deriving DecidableEq, Repr

/-- The all-ready start condition checked at the end of
`handlePlayerReady`:
`waiting.size >= MIN_PLAYERS && waiting.size <= MAX_PLAYERS &&
 ready.size === waiting.size && ready.size > 0`. -/
def readyCond (w r : List String) : Bool :=
  MIN_PLAYERS ≤ w.length ∧ w.length ≤ MAX_PLAYERS ∧
    r.length = w.length ∧ 0 < r.length

/-- One event step of the lobby machine, following the handlers in
`gameLogic.js`:
* `join`: rejected while playing; ignored if already waiting; else added.
* `readyToggle`: only in lobby/waiting and only for a waiting socket;
  toggles membership in the ready set; when `readyCond` then holds,
  `startGame` runs — it returns early without a map, otherwise sets state
  to `waiting` and schedules the delayed transition to `playing`.
* `disconnect`: removes the socket from both sets; while playing,
  `checkGameEnd` may end the game.
* `startFire`: the delayed `startGame` body - sets state to `playing`.
* `resetFire`: `resetGame` - back to `lobby`, both sets cleared. -/
def lobbyStep (s : Lobby) (e : LEv) : Lobby :=
  match e with
  | .join sid =>
    if s.gameState = .playing then s
    else if sid ∈ s.waiting then s
    else { s with waiting := s.waiting ++ [sid] }
  | .readyToggle sid =>
    if s.gameState ≠ .lobby ∧ s.gameState ≠ .waiting then s
    else if sid ∉ s.waiting then s
    else
      let r := if sid ∈ s.ready then s.ready.erase sid else s.ready ++ [sid]
      let s1 := { s with ready := r }
      if readyCond s1.waiting s1.ready then
        if s1.hasMap then { s1 with gameState := .waiting, pending := s1.pending + 1 }
        else s1
      else s1
  | .disconnect sid endsGame =>
    let s1 := { s with
      waiting := s.waiting.erase sid
      ready := s.ready.erase sid }
    if s1.gameState = .playing ∧ endsGame then { s1 with gameState := .ended }
    else s1
  | .startFire =>
    match s.pending with
    | 0 => s
    | n + 1 => { s with gameState := .playing, pending := n }
  | .resetFire =>
    { s with gameState := .lobby, waiting := [], ready := [] }

/-- Run the lobby machine over an event sequence. -/
def lobbyRun (s : Lobby) (evs : List LEv) : Lobby :=
  evs.foldl lobbyStep s

/-- Whether an event, taken in state `s`, triggers `startGame` — i.e. it is a
ready toggle accepted by the handler for which `readyCond` holds on the
toggled sets and a map is loaded. -/
def triggersStart (s : Lobby) (e : LEv) : Bool :=
  match e with
  | .readyToggle sid =>
    (s.gameState = .lobby ∨ s.gameState = .waiting) ∧ sid ∈ s.waiting ∧
      readyCond s.waiting
        (if sid ∈ s.ready then s.ready.erase sid else s.ready ++ [sid]) ∧
      s.hasMap
  | _ => false

/-!
## Client reconciler (`src/client/src/gameplay/car.js`)

Orientation representation: all orientations that occur in the claims about
the reconciler lie on a single slerp geodesic (for the convergence claim the
history holds one repeated snapshot). `THREE.Quaternion.slerp(q, t)` moves
along the geodesic from the current quaternion toward `q` by the fraction
`t` of the remaining arc; we therefore represent an orientation by its
arc-length coordinate `ang : ℚ` along that geodesic, on which slerp acts as
linear interpolation. Positions use exact `THREE.Vector3.lerp`
(`a + (b - a) * alpha`).
-/

/-- Linear interpolation of rationals (`lerp`/geodesic slerp coordinate). -/
def lerp1 (a b alpha : ℚ) : ℚ := a + (b - a) * alpha

/-- Vector interpolation `THREE.Vector3.lerp`. -/
def lerpV (a b : Vec3) (alpha : ℚ) : Vec3 :=
  ⟨lerp1 a.x b.x alpha, lerp1 a.y b.y alpha, lerp1 a.z b.z alpha⟩

/-- One timestamped snapshot in `netHistory`:
`{ t, pos, quat }` with the orientation in geodesic coordinates. -/
structure Snap where
  t : ℚ
  pos : Vec3
  ang : ℚ
  deriving DecidableEq, Repr

/-- The rotation field of an incoming server state record, after the shape
and finiteness checks of `applyServerState`: a 4-element finite quaternion,
a 3-element Euler fallback (converted via `setFromEuler`), or invalid. The
orientation value is kept in geodesic coordinates. -/
inductive RotMsg where
  | quatRot (ang : ℚ)
  | eulerRot (ang : ℚ)
  | invalid
  deriving DecidableEq, Repr

/-- The parsed orientation: `some` iff the rotation field passed the
validity checks. -/
def RotMsg.parse : RotMsg → Option ℚ
  | .quatRot a => some a
  | .eulerRot a => some a
  | .invalid => none

/-- An incoming server state record as seen by `Car.applyServerState`.
`position = some p` iff `state.position` is a 3-element array of finite
numbers; `t = some st` iff `Number.isFinite(state.t)`. -/
structure StateMsg where
  position : Option Vec3
  rotation : RotMsg
  t : Option ℚ
  deriving DecidableEq, Repr

/-- The client car's network-reconciliation state
(`netHistory`, `netTimeOffsetMs`, `netSnapImmediate`,
`netSmoothedPos`/`netSmoothedQuat` — null together — and the rendered
pose `position`/orientation). -/
structure NetCar where
  netHistory : List Snap
  netTimeOffsetMs : Option ℚ
  netSnapImmediate : Bool
  netSmoothed : Option (Vec3 × ℚ)
  position : Vec3
  orientation : ℚ
  deriving DecidableEq, Repr

/-- Handler `Car.applyServerState(state)` at local receive time `now`
(`car.js`, lines 191-256): when position and rotation are valid, either
(finite `state.t`) update the smoothed clock offset
(`offset = offset*0.9 + (now - t)*0.1`, first sample raw) and push
`(t, pos, quat)`, or (no finite `state.t`) push with local time; trim the
history to the last 10; on the first snapshot (`netSnapImmediate`), snap the
rendered pose to it. -/
def applyServerState (c : NetCar) (msg : StateMsg) (now : ℚ) : NetCar :=
  let c1 :=
    match msg.position, msg.rotation.parse with
    | some p, some q =>
      let c0 :=
        match msg.t with
        | some st =>
          let est := now - st
          let off :=
            match c.netTimeOffsetMs with
            | none => est
            | some o => o * (9 / 10) + est * (1 / 10)
          { c with
              netTimeOffsetMs := some off
              netHistory := c.netHistory ++ [(⟨st, p, q⟩ : Snap)] }
        | none =>
          { c with netHistory := c.netHistory ++ [(⟨now, p, q⟩ : Snap)] }
      if 10 < c0.netHistory.length then
        { c0 with netHistory := c0.netHistory.drop (c0.netHistory.length - 10) }
      else c0
    | _, _ => c
  match c1.netHistory.getLast? with
  | some last =>
    if c1.netSnapImmediate then
      { c1 with
          position := last.pos
          orientation := last.ang
          netSnapImmediate := false }
    else c1
  | none => c1

/-- The bracket-search loop of `Car.interpolateFromNetwork`: scan the
history; `a` becomes each sample with `t <= renderT`; the first sample with
`t >= renderT` becomes `b` and breaks. -/
def bracketLoop (hist : List Snap) (renderT : ℚ) (a : Option Snap) :
    Option Snap × Option Snap :=
  match hist with
  | [] => (a, none)
  | s :: rest =>
    let a1 := if s.t ≤ renderT then some s else a
    if renderT ≤ s.t then (a1, some s)
    else bracketLoop rest renderT a1

/-- Method `Car.interpolateFromNetwork` (`car.js`, lines 262-310) at render time
`now`: no-op on empty history; compute
`renderT = (now - offset) - renderDelay` (delay 150 ms); bracket `renderT`
in the history (falling back to the first/last sample); interpolate with
`alpha = clamp((renderT - a.t)/span, 0, 1)` when `span > 0.0001`, else 0;
then exponentially smooth toward the interpolated pose with factor 0.3,
snapping when the smoothed pose is still null; the smoothed pose becomes the
rendered pose. -/
def interpolateFromNetwork (c : NetCar) (now : ℚ) : NetCar :=
  match c.netHistory with
  | [] => c
  | h :: tl =>
    let serverNow :=
      match c.netTimeOffsetMs with
      | none => now
      | some o => now - o
    let renderT := serverNow - 150
    let br := bracketLoop (h :: tl) renderT none
    let a := br.fst.getD h
    let b := br.snd.getD (tl.getLastD h)
    let span := b.t - a.t
    let alpha := if 1 / 10000 < span then max 0 (min 1 ((renderT - a.t) / span)) else 0
    let ip := lerpV a.pos b.pos alpha
    let ia := lerp1 a.ang b.ang alpha
    match c.netSmoothed with
    | none =>
      { c with netSmoothed := some (ip, ia), position := ip, orientation := ia }
    | some sm =>
      let np := lerpV sm.fst ip (3 / 10)
      let na := lerp1 sm.snd ia (3 / 10)
      { c with netSmoothed := some (np, na), position := np, orientation := na }

/-- Iterate `interpolateFromNetwork` over successive render-frame times. -/
def iterRender (c : NetCar) (nows : List ℚ) : NetCar :=
  nows.foldl interpolateFromNetwork c

/-!
## Derived eligibility predicates and concrete example states
-/

/-- The guard conditions `checkFlagCapture` takes before scoring, collected
into one predicate: the player exists, has `hasFlag`, is not eliminated, is
the recorded carrier of the enemy flag, the team's spawn list is nonempty,
and the full 3-D distance to the first spawn point is below the capture
radius 5. -/
def captureEligible (s : Server) (pid : String) : Bool :=
  match getPlayer s.pm pid with
  | none => false
  | some p =>
    p.hasFlag && !p.eliminated &&
      decide ((s.flags.get p.team.other).carriedBy = some pid) &&
      match s.mapData.spawnPoints p.team with
      | [] => false
      | base :: _ => decide (dist3Sq p.pos base.pos < 5 * 5)

/-- The guard conditions `handleFlagPickup` takes before granting a pickup,
collected into one predicate. -/
def pickupEligible (s : Server) (pid : String) (flagTeam : Team) : Bool :=
  match getPlayer s.pm pid with
  | none => false
  | some p =>
    !p.eliminated && !p.hasFlag && decide (p.team ≠ flagTeam) &&
      match (s.flags.get flagTeam).position with
      | none => false
      | some fp =>
        decide ((s.flags.get flagTeam).carriedBy = none) &&
          decide (dist3Sq p.pos fp < 3 * 3)

/-- Example map: red spawns at the origin, flags at ±20 on the x-axis. -/
def exMap : MapData :=
  { flagHomeRed := ⟨-20, 0, 0⟩
    flagHomeBlue := ⟨20, 0, 0⟩
    spawnsRed := [⟨⟨0, 0, 0⟩, ⟨0, 0, 0⟩⟩]
    spawnsBlue := [⟨⟨40, 0, 0⟩, ⟨0, 0, 0⟩⟩] }

/-- Example red player `"p1"`, carrying the blue flag, hovering 10 units
above the red base (horizontal distance 0, 3-D distance 10). -/
def exPlayer : Player :=
  { id := "p1"
    team := .red
    pos := ⟨0, 10, 0⟩
    rot := ⟨0, 0, 0⟩
    vel := ⟨0, 0, 0⟩
    angvel := ⟨0, 0, 0⟩
    hasFlag := true
    carHasFlag := true
    eliminated := false
    invincibleUntil := 0
    respawnTime := 0 }

/-- The geometric approach of the smoothing pass toward a fixed target
position: `i` frames leave `(7/10)^i` of the initial offset `v - t`. -/
def geomPos (t v : Vec3) (i : ℕ) : Vec3 :=
  ⟨t.x + (7 / 10) ^ i * (v.x - t.x), t.y + (7 / 10) ^ i * (v.y - t.y),
    t.z + (7 / 10) ^ i * (v.z - t.z)⟩

/-- The geometric approach of the smoothing pass toward a fixed target
orientation (geodesic coordinate). -/
def geomAng (t v : ℚ) (i : ℕ) : ℚ := t + (7 / 10) ^ i * (v - t)

/-- Example eliminated player: `exPlayer` after an elimination whose
respawn deadline is 5000 ms. -/
def exElimPlayer : Player :=
  { exPlayer with eliminated := true, respawnTime := 5000, hasFlag := false }

/-- Example client car with an established clock-offset estimate of 30 ms
and one buffered snapshot. -/
def exCar : NetCar :=
  { netHistory := [⟨100, ⟨1, 2, 3⟩, 0⟩]
    netTimeOffsetMs := some 30
    netSnapImmediate := false
    netSmoothed := none
    position := ⟨1, 2, 3⟩
    orientation := 0 }

/-- Example well-formed server state message with timestamp 116. -/
def exMsg : StateMsg :=
  { position := some ⟨1, 2, 3⟩
    rotation := .quatRot 0
    t := some 116 }

/-- Example repeated snapshot for the reconciler convergence claim. -/
def exSnap : Snap := ⟨1000, ⟨10, 0, 0⟩, 4⟩

/-- Example client car whose history holds three copies of `exSnap` and
whose smoothed pose starts at the origin. -/
def exCarR : NetCar :=
  { netHistory := List.replicate 3 exSnap
    netTimeOffsetMs := some 0
    netSnapImmediate := false
    netSmoothed := some (⟨0, 0, 0⟩, 0)
    position := ⟨0, 0, 0⟩
    orientation := 0 }

/-- Example in-match server state: one red player carrying the blue flag. -/
def exServer : Server :=
  { gameState := .playing
    players := [("p1", "p1")]
    waitingPlayers := ["p1"]
    readyPlayers := ["p1"]
    mapData := exMap
    scores := ⟨0, 0⟩
    flags :=
      { red := ⟨some ⟨-20, 0, 0⟩, none⟩
        blue := ⟨none, some "p1"⟩ }
    pm := [exPlayer] }

end Ragetrack

namespace Ragetrack

/-!
## Theorems
-/

/-- Projections of record-update helpers used repeatedly below. -/
theorem handleFlagDrop_scores (s : Server) (pid : String) :
    (handleFlagDrop s pid).scores = s.scores := by
  unfold handleFlagDrop
  cases getPlayer s.pm pid with
  | none => rfl
  | some p =>
    by_cases h : p.hasFlag = true
    · simp [h]
      split <;> rfl
    · simp [h]

/-- Lemma: `endGame` does not change the scores. -/
theorem endGame_scores (s : Server) (w : Option Team) :
    (endGame s w).fst.scores = s.scores := rfl

/-- C10: a `joinGame` arriving while the match state is `playing` emits an
error to the socket and leaves the entire server state unchanged; in
particular the socket gets no player id and no other message. -/
theorem handleJoinGame_playing_rejected (s : Server) (sid : String)
    (h : s.gameState = .playing) :
    handleJoinGame s sid = (s, [Event.errorMsg sid]) := by
  simp [handleJoinGame, h]

/-- Witness for C10 at a concrete playing-state server. -/
theorem handleJoinGame_playing_rejected_witness :
    handleJoinGame exServer "p9" = (exServer, [Event.errorMsg "p9"]) :=
  handleJoinGame_playing_rejected exServer "p9" rfl

/-- C3: `handleFlagPickup` grants the pickup exactly when `pickupEligible`
holds (flag has a position and no carrier, enemy team, player alive and not
already carrying, 3-D distance below the pickup radius); on success it only
sets the player's two carry markers and the flag's `carriedBy`, and on
failure — in particular for an already-carried or same-team flag — it
returns the state entirely unchanged. -/
theorem handleFlagPickup_iff (s : Server) (pid : String) (flagTeam : Team) :
    (handleFlagPickup s pid flagTeam).snd = pickupEligible s pid flagTeam ∧
    (handleFlagPickup s pid flagTeam).fst =
      (if pickupEligible s pid flagTeam then
        { s with
            pm := updatePlayer s.pm pid
              (fun q => { q with hasFlag := true, carHasFlag := true })
            flags := s.flags.set flagTeam
              { s.flags.get flagTeam with carriedBy := some pid } }
      else s) := by
  unfold handleFlagPickup pickupEligible
  cases hp : getPlayer s.pm pid with
  | none => simp
  | some p =>
    by_cases he : p.eliminated = true
    · simp [he]
    · by_cases hf : p.hasFlag = true
      · simp [he, hf]
      · by_cases ht : p.team = flagTeam
        · simp [he, hf, ht]
        · cases hpos : (s.flags.get flagTeam).position with
          | none => simp [he, hf, ht, hpos]
          | some fp =>
            by_cases hc : (s.flags.get flagTeam).carriedBy = none
            · by_cases hd : dist3Sq p.pos fp < 3 * 3
              · simp [he, hf, ht, hpos, hc, hd]
              · simp [he, hf, ht, hpos, hc, hd]
            · simp [he, hf, ht, hpos, hc]

/-- C1 (amended): `checkFlagCapture` reports a capture exactly when
`captureEligible` holds — the carrier alive and carrying the enemy flag and
within **full 3-D** distance 5 of the first spawn point of their own team —
and the scores change exactly by incrementing the capturing team by 1 when
eligible, staying unchanged otherwise. -/
theorem checkFlagCapture_scores (s : Server) (pid : String) :
    (checkFlagCapture s pid).snd.snd = captureEligible s pid ∧
    (checkFlagCapture s pid).fst.scores =
      (match getPlayer s.pm pid with
        | none => s.scores
        | some p =>
          if captureEligible s pid then s.scores.incr p.team else s.scores) ∧
    (∀ t : Team, (s.scores.incr t).get t = s.scores.get t + 1 ∧
      (s.scores.incr t).get t.other = s.scores.get t.other) := by
  refine ⟨?_, ?_, ?_⟩
  · unfold checkFlagCapture captureEligible
    cases hp : getPlayer s.pm pid with
    | none => simp
    | some p =>
      by_cases hf : p.hasFlag = true
      · by_cases he : p.eliminated = true
        · simp [hf, he]
        · by_cases hc : (s.flags.get p.team.other).carriedBy = some pid
          · cases hsp : s.mapData.spawnPoints p.team with
            | nil => simp [hf, he, hc, hsp]
            | cons base rest =>
              by_cases hd : dist3Sq p.pos base.pos < 5 * 5
              · simp [hf, he, hc, hsp, hd]
                split <;> rfl
              · simp [hf, he, hc, hsp, hd]
          · simp [hf, he, hc]
      · simp [hf]
  · unfold checkFlagCapture captureEligible
    cases hp : getPlayer s.pm pid with
    | none => simp
    | some p =>
      by_cases hf : p.hasFlag = true
      · by_cases he : p.eliminated = true
        · simp [hf, he]
        · by_cases hc : (s.flags.get p.team.other).carriedBy = some pid
          · cases hsp : s.mapData.spawnPoints p.team with
            | nil => simp [hf, he, hc, hsp]
            | cons base rest =>
              by_cases hd : dist3Sq p.pos base.pos < 5 * 5
              · simp [hf, he, hc, hsp, hd]
                split <;> simp [endGame, handleFlagDrop_scores]
              · simp [hf, he, hc, hsp, hd]
          · simp [hf, he, hc]
      · simp [hf]
  · intro t
    cases t <;> simp [Scores.incr, Scores.get, Team.other]

/-- C1 (counterexample to the claim as stated): in `exServer` the carrier is
alive, carries the enemy flag, and is at **horizontal** distance 0 < 5 from
their own base, yet `checkFlagCapture` does not score (the code measures
full 3-D distance, which is 10 here), leaving both scores unchanged. -/
theorem checkFlagCapture_not_horizontal :
    getPlayer exServer.pm "p1" = some exPlayer ∧
    exPlayer.eliminated = false ∧
    exPlayer.hasFlag = true ∧
    (exServer.flags.get exPlayer.team.other).carriedBy = some "p1" ∧
    exServer.mapData.spawnPoints exPlayer.team = [⟨⟨0, 0, 0⟩, ⟨0, 0, 0⟩⟩] ∧
    distXZSq exPlayer.pos ⟨0, 0, 0⟩ < 5 * 5 ∧
    (checkFlagCapture exServer "p1").snd.snd = false ∧
    (checkFlagCapture exServer "p1").fst.scores = exServer.scores := by
  refine ⟨rfl, rfl, rfl, rfl, rfl, ?_, ?_, ?_⟩
  · norm_num [distXZSq, exPlayer]
  · simp only [checkFlagCapture, exServer, exPlayer, exMap, getPlayer,
      Flags.get, Team.other, MapData.spawnPoints, List.find?, dist3Sq]
    norm_num
  · simp only [checkFlagCapture, exServer, exPlayer, exMap, getPlayer,
      Flags.get, Team.other, MapData.spawnPoints, List.find?, dist3Sq]
    norm_num

/-- C2 (code bug): a fall report for a player carrying the blue flag must
return that flag to its base, but after `handlePlayerFall` the blue flag is
still recorded as carried by the (now eliminated) player and has no
position: `eliminatePlayer` clears `player.hasFlag` before `handleFlagDrop`
tests it, so the drop is skipped. -/
theorem handlePlayerFall_flag_stuck :
    exServer.flags.blue.carriedBy = some "p1" ∧
    exPlayer.hasFlag = true ∧
    (handlePlayerFall exServer "p1" 1000).fst.flags.blue.carriedBy = some "p1" ∧
    (handlePlayerFall exServer "p1" 1000).fst.flags.blue.position = none ∧
    (getPlayer (handlePlayerFall exServer "p1" 1000).fst.pm "p1").map
        Player.eliminated = some true ∧
    (getPlayer (handlePlayerFall exServer "p1" 1000).fst.pm "p1").map
        Player.hasFlag = some false := by
  exact ⟨rfl, rfl, rfl, rfl, rfl, rfl⟩

/-- Characterization of the fixed-timestep loop: starting from an
accumulator in `[n·Δt, (n+1)·Δt)` the loop runs exactly `n` physics steps
and leaves `acc - n·Δt` in the accumulator (i.e. exactly
`⌊acc / FIXED_TIMESTEP⌋` steps). -/
theorem runAccumulator_spec :
    ∀ (n : ℕ) (acc : ℚ), (n : ℚ) * FIXED_TIMESTEP ≤ acc →
      acc < ((n : ℚ) + 1) * FIXED_TIMESTEP →
      runAccumulator acc = (n, acc - n * FIXED_TIMESTEP) := by
  intro n
  induction n with
  | zero =>
    intro acc h0 h1
    rw [runAccumulator]
    rw [dif_neg (by push_cast at h1; linarith)]
    simp
  | succ n ih =>
    intro acc h0 h1
    have hFT : (0 : ℚ) < FIXED_TIMESTEP := by norm_num [FIXED_TIMESTEP]
    have hn : (0 : ℚ) ≤ (n : ℚ) := Nat.cast_nonneg n
    have hge : FIXED_TIMESTEP ≤ acc := by push_cast at h0; nlinarith
    rw [runAccumulator, dif_pos hge]
    rw [ih (acc - FIXED_TIMESTEP) (by push_cast at h0 ⊢; linarith)
      (by push_cast at h1 ⊢; linarith)]
    refine Prod.ext rfl ?_
    push_cast
    ring

/-- C4 (code bug): a 1-second stall (`deltaTime = 1`) makes
`PhysicsWorld.update` execute 60 physics sub-steps in a single call — the
loop has no cap, and `PHYSICS.MAX_SUBSTEPS = 10` is never consulted. -/
theorem physicsUpdate_exceeds_max_substeps :
    (physicsUpdate 0 1).fst = 60 ∧ MAX_SUBSTEPS < (physicsUpdate 0 1).fst := by
  have h := runAccumulator_spec 60 1 (by norm_num [FIXED_TIMESTEP])
    (by norm_num [FIXED_TIMESTEP])
  have h2 : (physicsUpdate 0 1).fst = 60 := by
    unfold physicsUpdate
    rw [show (0 : ℚ) + 1 = 1 by ring, h]
  exact ⟨h2, by rw [h2]; norm_num [MAX_SUBSTEPS]⟩

/-- C5: while the match is playing, the tick loop's broadcast timestamps are
exactly `(tick count) × tickIntervalMs`, independent of the wall-clock
values `nows`, and consecutive broadcasts differ by exactly one tick
interval. -/
theorem runTicks_timestamps (s : LoopState) (nows : List ℚ)
    (hplay : s.gameState = .playing)
    (hsync : s.serverTickMs = (s.serverTick : ℚ) * tickIntervalMs) :
    (runTicks s nows).snd =
      (List.range nows.length).map
        (fun k => ((s.serverTick + k + 1 : ℕ) : ℚ) * tickIntervalMs) ∧
    ∀ i : ℕ, i + 1 < nows.length →
      (runTicks s nows).snd[i + 1]? =
        ((runTicks s nows).snd[i]?).map (fun t => t + tickIntervalMs) := by
  have main : ∀ (nows : List ℚ) (s : LoopState), s.gameState = .playing →
      s.serverTickMs = (s.serverTick : ℚ) * tickIntervalMs →
      (runTicks s nows).snd =
        (List.range nows.length).map
          (fun k => ((s.serverTick + k + 1 : ℕ) : ℚ) * tickIntervalMs) := by
    intro nows
    induction nows with
    | nil => intro s _ _; simp [runTicks]
    | cons now rest ih =>
      intro s hplay hsync
      have hstep : tickStep s now =
          (tickAdvance s now, some (s.serverTickMs + tickIntervalMs)) := by
        simp [tickStep, tickAdvance, hplay]
      have ih2 := ih (tickAdvance s now)
        (by simp [tickAdvance, hplay])
        (by simp [tickAdvance, hsync]; ring_nf)
      simp only [runTicks, hstep, ih2]
      rw [List.length_cons, List.range_succ_eq_map]
      simp only [List.map_cons, List.map_map, Option.toList_some]
      refine List.cons_eq_cons.2 ⟨?_, ?_⟩
      · rw [hsync]; push_cast; ring
      · refine List.map_congr_left ?_
        intro k _
        simp only [Function.comp, tickAdvance]
        push_cast
        ring
  refine ⟨main nows s hplay hsync, ?_⟩
  intro i hi
  rw [main nows s hplay hsync]
  rw [List.getElem?_map, List.getElem?_map, List.getElem?_range hi,
    List.getElem?_range (Nat.lt_of_succ_lt hi)]
  simp only [Option.map_some', Option.some.injEq]
  push_cast
  ring

/-- Witness for C5: two ticks from a fresh playing loop state broadcast
timestamps `tickIntervalMs` and `2 * tickIntervalMs`, whatever the wall
clock reads. -/
theorem runTicks_timestamps_witness :
    (runTicks ⟨0, 0, 0, GState.playing⟩ [17, 42]).snd =
      [tickIntervalMs, 2 * tickIntervalMs] := by
  have h := runTicks_timestamps ⟨0, 0, 0, GState.playing⟩ [17, 42] rfl
    (by norm_num)
  rw [h.1]
  norm_num [List.range_succ]

/-- Lemma: `lobbyRun` unfolds one event from the right. -/
theorem lobbyRun_append_singleton (s : Lobby) (p : List LEv) (e : LEv) :
    lobbyRun s (p ++ [e]) = lobbyStep (lobbyRun s p) e := by
  simp [lobbyRun, List.foldl_append]

/-- A step that creates a playing state or an outstanding `startGame` timer
out of a state that had neither must be a ready toggle satisfying the
all-ready start condition (with a map loaded). -/
theorem lobbyStep_no_new_play (s : Lobby) (e : LEv)
    (hng : ¬ (s.gameState = .playing ∨ 0 < s.pending))
    (hpost : (lobbyStep s e).gameState = .playing ∨ 0 < (lobbyStep s e).pending) :
    triggersStart s e = true := by
  push_neg at hng
  obtain ⟨hgs, hpend⟩ := hng
  have hp0 : s.pending = 0 := by omega
  cases e with
  | join sid =>
    exfalso
    simp only [lobbyStep] at hpost
    split_ifs at hpost <;> simp_all
  | disconnect sid endsGame =>
    exfalso
    simp only [lobbyStep] at hpost
    split_ifs at hpost <;> simp_all
  | startFire =>
    exfalso
    simp only [lobbyStep, hp0] at hpost
    simp_all
  | resetFire =>
    exfalso
    simp only [lobbyStep] at hpost
    simp_all
  | readyToggle sid =>
    by_cases h1 : s.gameState ≠ .lobby ∧ s.gameState ≠ .waiting
    · exfalso
      simp only [lobbyStep, if_pos h1] at hpost
      simp_all
    · by_cases h2 : sid ∈ s.waiting
      · by_cases h3 : readyCond s.waiting
            (if sid ∈ s.ready then s.ready.erase sid else s.ready ++ [sid]) = true
        · by_cases h4 : s.hasMap = true
          · have h1o : s.gameState = .lobby ∨ s.gameState = .waiting := by
              rcases hsg : s.gameState with _ | _ | _ | _ <;> simp_all
            simp [triggersStart, h1o, h2, h3, h4]
          · exfalso
            simp only [lobbyStep, if_neg h1] at hpost
            simp only [h2, not_true_eq_false, if_neg, if_false] at hpost
            simp only [h3, if_true] at hpost
            simp_all
        · exfalso
          simp only [lobbyStep, if_neg h1] at hpost
          simp only [h2, not_true_eq_false, if_neg, if_false] at hpost
          simp_all
      · exfalso
        simp only [lobbyStep, if_neg h1] at hpost
        simp only [h2, not_false_eq_true, if_pos, if_true] at hpost
        simp_all

/-- C6: for every join/ready/disconnect/timer event sequence from the
initial server state, if the reached state is playing then the sequence
contains a ready event that, at the moment it was handled, satisfied
`MIN_PLAYERS ≤ playerCount ≤ MAX_PLAYERS` and `readyCount = playerCount >
0` (`triggersStart` spells out exactly that condition). -/
theorem lobbyRun_playing_has_trigger (hm : Bool) (evs : List LEv)
    (h : (lobbyRun (initLobby hm) evs).gameState = .playing) :
    ∃ p e q, evs = p ++ e :: q ∧
      triggersStart (lobbyRun (initLobby hm) p) e = true := by
  suffices haux : ∀ evs : List LEv,
      ((lobbyRun (initLobby hm) evs).gameState = .playing ∨
        0 < (lobbyRun (initLobby hm) evs).pending) →
      ∃ p e q, evs = p ++ e :: q ∧
        triggersStart (lobbyRun (initLobby hm) p) e = true by
    exact haux evs (Or.inl h)
  intro evs
  induction evs using List.reverseRecOn with
  | nil =>
    intro hcontr
    simp [lobbyRun, initLobby] at hcontr
  | append_singleton p e ih =>
    intro hpost
    rw [lobbyRun_append_singleton] at hpost
    by_cases hpre : (lobbyRun (initLobby hm) p).gameState = .playing ∨
        0 < (lobbyRun (initLobby hm) p).pending
    · obtain ⟨p1, e1, q1, hdec, htrig⟩ := ih hpre
      exact ⟨p1, e1, q1 ++ [e], by rw [hdec]; simp, htrig⟩
    · exact ⟨p, e, [], rfl, lobbyStep_no_new_play _ _ hpre hpost⟩

/-- Witness for C6: a concrete two-player lobby trace that reaches playing,
together with the trigger decomposition the theorem produces. -/
theorem lobbyRun_playing_has_trigger_witness :
    (lobbyRun (initLobby true)
        [.join "a", .join "b", .readyToggle "a", .readyToggle "b",
          .startFire]).gameState = .playing ∧
    ∃ p e q,
      ([.join "a", .join "b", .readyToggle "a", .readyToggle "b",
          .startFire] : List LEv) = p ++ e :: q ∧
      triggersStart (lobbyRun (initLobby true) p) e = true := by
  refine ⟨by rfl, ?_⟩
  exact lobbyRun_playing_has_trigger true
    [.join "a", .join "b", .readyToggle "a", .readyToggle "b", .startFire]
    (by rfl)

/-- C7: the elimination/respawn lifecycle of one player under
`PlayerManager`. (1) `eliminatePlayer`'s mutation sets `eliminated` and a
respawn deadline of `now + RESPAWN_DELAY` seconds, which is `≥ now`.
(2) a tick that detects a fall eliminates with the same deadline (and
cannot respawn in the same tick). (3) an already-eliminated player either
stays eliminated, or — only when the deadline has been reached — is
teleported to one of the team's spawn points with zeroed linear and
angular velocity and `invincibleUntil = now + INVINCIBILITY_DURATION`. -/
theorem pmUpdatePlayer_lifecycle (p : Player) (now : ℚ) (newPos : Vec3)
    (spawns : List Spawn) (choice : ℕ) :
    ((elimUpdate p now).eliminated = true ∧
      (elimUpdate p now).respawnTime = now + RESPAWN_DELAY * 1000 ∧
      now ≤ (elimUpdate p now).respawnTime) ∧
    (p.eliminated = false → newPos.y < DEATH_THRESHOLD →
      (pmUpdatePlayer p now newPos spawns choice).eliminated = true ∧
      (pmUpdatePlayer p now newPos spawns choice).respawnTime =
        now + RESPAWN_DELAY * 1000) ∧
    (p.eliminated = true →
      (pmUpdatePlayer p now newPos spawns choice).eliminated = true ∨
      (0 < p.respawnTime ∧ p.respawnTime ≤ now ∧
        ∃ sp ∈ spawns,
          pmUpdatePlayer p now newPos spawns choice =
            respawnUpdate { p with pos := newPos } sp now ∧
          (pmUpdatePlayer p now newPos spawns choice).pos = sp.pos ∧
          (pmUpdatePlayer p now newPos spawns choice).vel = vzero ∧
          (pmUpdatePlayer p now newPos spawns choice).angvel = vzero ∧
          (pmUpdatePlayer p now newPos spawns choice).invincibleUntil =
            now + INVINCIBILITY_DURATION * 1000)) := by
  refine ⟨⟨rfl, rfl, by norm_num [elimUpdate, RESPAWN_DELAY]⟩, ?_, ?_⟩
  · intro hne hfall
    have h5 : ¬ (now + RESPAWN_DELAY * 1000 ≤ now) := by
      norm_num [RESPAWN_DELAY]
    constructor <;> simp [pmUpdatePlayer, elimUpdate, hne, hfall, h5]
  · intro helim
    by_cases hr : 0 < p.respawnTime ∧ p.respawnTime ≤ now
    · cases hsp : spawns[choice % spawns.length]? with
      | none =>
        exact Or.inl (by simp [pmUpdatePlayer, helim, hr.1, hr.2, hsp])
      | some sp =>
        refine Or.inr ⟨hr.1, hr.2, sp, List.getElem?_mem hsp, ?_, ?_, ?_, ?_, ?_⟩ <;>
          simp [pmUpdatePlayer, helim, hr.1, hr.2, hsp, respawnUpdate]
    · exact Or.inl (by simp [pmUpdatePlayer, helim, hr])

/-- Witness for C7 at a concrete eliminated player whose deadline has
passed: the tick respawns it at the only spawn point with zero velocity
and a fresh invincibility window. -/
theorem pmUpdatePlayer_lifecycle_witness :
    (pmUpdatePlayer exElimPlayer 6000 ⟨0, 3, 0⟩ exMap.spawnsRed 0).eliminated =
        true ∨
      (0 < exElimPlayer.respawnTime ∧ exElimPlayer.respawnTime ≤ 6000 ∧
        ∃ sp ∈ exMap.spawnsRed,
          pmUpdatePlayer exElimPlayer 6000 ⟨0, 3, 0⟩ exMap.spawnsRed 0 =
            respawnUpdate { exElimPlayer with pos := ⟨0, 3, 0⟩ } sp 6000 ∧
          (pmUpdatePlayer exElimPlayer 6000 ⟨0, 3, 0⟩ exMap.spawnsRed 0).pos =
            sp.pos ∧
          (pmUpdatePlayer exElimPlayer 6000 ⟨0, 3, 0⟩ exMap.spawnsRed 0).vel =
            vzero ∧
          (pmUpdatePlayer exElimPlayer 6000 ⟨0, 3, 0⟩ exMap.spawnsRed 0).angvel =
            vzero ∧
          (pmUpdatePlayer exElimPlayer 6000 ⟨0, 3, 0⟩
              exMap.spawnsRed 0).invincibleUntil =
            6000 + INVINCIBILITY_DURATION * 1000) :=
  (pmUpdatePlayer_lifecycle exElimPlayer 6000 ⟨0, 3, 0⟩ exMap.spawnsRed 0).2.2 rfl

/-- C8: on arrival of a well-formed server state record (valid position,
valid rotation, finite timestamp `st`) at local time `now`, the clock
offset becomes the raw sample `now - st` on the first sample, and the
exponentially smoothed `offset*0.9 + (now - st)*0.1` afterwards. -/
theorem applyServerState_offset (c : NetCar) (msg : StateMsg) (now : ℚ)
    (p : Vec3) (q : ℚ) (st : ℚ)
    (hp : msg.position = some p) (hq : msg.rotation.parse = some q)
    (ht : msg.t = some st) :
    (applyServerState c msg now).netTimeOffsetMs =
      some (match c.netTimeOffsetMs with
        | none => now - st
        | some o => o * (9 / 10) + (now - st) * (1 / 10)) := by
  unfold applyServerState
  rw [hp, hq, ht]
  cases ho : c.netTimeOffsetMs with
  | none =>
    simp only [ho]
    repeat' split
    all_goals simp_all
  | some o =>
    simp only [ho]
    repeat' split
    all_goals simp_all

/-- Witness for C8: with an established offset of 30 ms and a snapshot
timestamped 116 received at local time 150 (sample 34), the new offset is
`30*0.9 + 34*0.1 = 30.4 = 152/5`. -/
theorem applyServerState_offset_witness :
    (applyServerState exCar exMsg 150).netTimeOffsetMs = some (152 / 5) := by
  have h := applyServerState_offset exCar exMsg 150 ⟨1, 2, 3⟩ 0 116 rfl rfl rfl
  rw [h]
  norm_num [exCar]

/-- Lemma: `lerp1` with factor 0 returns the start value. -/
theorem lerp1_zero (a b : ℚ) : lerp1 a b 0 = a := by
  simp [lerp1]

/-- Squared distances are nonnegative. -/
theorem dist3Sq_nonneg (a b : Vec3) : 0 ≤ dist3Sq a b := by
  unfold dist3Sq
  nlinarith [mul_self_nonneg (a.x - b.x), mul_self_nonneg (a.y - b.y),
    mul_self_nonneg (a.z - b.z)]

/-- The default-or-last of a replicated list is the replicated element. -/
theorem getLastD_replicate (s : Snap) : ∀ k : ℕ, (List.replicate k s).getLastD s = s := by
  intro k
  induction k with
  | zero => rfl
  | succ k ih =>
    rw [List.replicate_succ]
    cases k with
    | zero => rfl
    | succ m =>
      rw [List.replicate_succ]
      simpa [List.getLastD_cons] using ih

/-- On a history of identical snapshots the bracket search returns that
snapshot on both ends (up to the fallbacks applied by the caller). -/
theorem bracketLoop_replicate (s : Snap) (rT : ℚ) :
    ∀ (k : ℕ) (a0 : Option Snap), a0 = none ∨ a0 = some s →
      (bracketLoop (List.replicate (k + 1) s) rT a0).fst.getD s = s ∧
      (bracketLoop (List.replicate (k + 1) s) rT a0).snd.getD s = s := by
  intro k
  induction k with
  | zero =>
    intro a0 ha
    rw [List.replicate_succ, List.replicate_zero]
    by_cases h1 : s.t ≤ rT <;> by_cases h2 : rT ≤ s.t <;>
      rcases ha with ha | ha <;> simp [bracketLoop, h1, h2, ha]
  | succ k ih =>
    intro a0 ha
    rw [List.replicate_succ]
    by_cases h1 : s.t ≤ rT <;> by_cases h2 : rT ≤ s.t
    · simp [bracketLoop, h1, h2]
    · simpa [bracketLoop, h1, h2] using ih (some s) (Or.inr rfl)
    · rcases ha with ha | ha <;> simp [bracketLoop, h1, h2, ha]
    · exact absurd (le_of_not_le h1) h2

/-- One render frame on a constant history: the interpolation target is the
repeated snapshot itself, and the smoothing pass moves the smoothed pose
30% of the way toward it — whatever the frame time `now` is. -/
theorem interpolateFromNetwork_replicate_step (s : Snap) (k : ℕ) (c : NetCar)
    (sp : Vec3) (sa : ℚ) (hh : c.netHistory = List.replicate (k + 1) s)
    (hs : c.netSmoothed = some (sp, sa)) (now : ℚ) :
    interpolateFromNetwork c now =
      { c with
          netSmoothed := some (lerpV sp s.pos (3 / 10), lerp1 sa s.ang (3 / 10))
          position := lerpV sp s.pos (3 / 10)
          orientation := lerp1 sa s.ang (3 / 10) } := by
  have hbr := bracketLoop_replicate s
    ((match c.netTimeOffsetMs with | none => now | some o => now - o) - 150)
    k none (Or.inl rfl)
  rw [List.replicate_succ] at hbr
  unfold interpolateFromNetwork
  rw [hh, List.replicate_succ]
  simp only [getLastD_replicate, hbr.1, hbr.2, sub_self]
  rw [if_neg (by norm_num)]
  simp only [lerpV, lerp1_zero, hs]

/-- Arithmetic of the smoothing contraction: moving 30% toward the target
multiplies the remaining offset by 7/10. -/
theorem contract_step (t v : ℚ) (m : ℕ) :
    t + (7 / 10) ^ m * (lerp1 v t (3 / 10) - t) = t + (7 / 10) ^ (m + 1) * (v - t) := by
  simp only [lerp1, pow_succ]
  ring

/-- Iterating render frames on a constant history: after `n` frames the
smoothed pose is the target plus `(7/10)^n` of the initial offset, and (for
`n ≥ 1`) that smoothed pose is exactly the rendered pose. -/
theorem iterRender_replicate (s : Snap) (k : ℕ) :
    ∀ (nows : List ℚ) (c : NetCar) (sp : Vec3) (sa : ℚ),
      c.netHistory = List.replicate (k + 1) s →
      c.netSmoothed = some (sp, sa) →
      (iterRender c nows).netSmoothed =
        some
          (⟨s.pos.x + (7 / 10) ^ nows.length * (sp.x - s.pos.x),
            s.pos.y + (7 / 10) ^ nows.length * (sp.y - s.pos.y),
            s.pos.z + (7 / 10) ^ nows.length * (sp.z - s.pos.z)⟩,
            s.ang + (7 / 10) ^ nows.length * (sa - s.ang)) ∧
      (nows ≠ [] →
        (iterRender c nows).position =
          ⟨s.pos.x + (7 / 10) ^ nows.length * (sp.x - s.pos.x),
            s.pos.y + (7 / 10) ^ nows.length * (sp.y - s.pos.y),
            s.pos.z + (7 / 10) ^ nows.length * (sp.z - s.pos.z)⟩ ∧
        (iterRender c nows).orientation =
          s.ang + (7 / 10) ^ nows.length * (sa - s.ang)) := by
  intro nows
  induction nows with
  | nil =>
    intro c sp sa hh hs
    refine ⟨?_, by simp⟩
    simp only [iterRender, List.foldl_nil, hs, List.length_nil, pow_zero, one_mul]
    obtain ⟨spx, spy, spz⟩ := sp
    norm_num
  | cons now rest ih =>
    intro c sp sa hh hs
    have hstep := interpolateFromNetwork_replicate_step s k c sp sa hh hs now
    have hh2 : (interpolateFromNetwork c now).netHistory = List.replicate (k + 1) s := by
      rw [hstep]; exact hh
    have hs2 : (interpolateFromNetwork c now).netSmoothed =
        some (lerpV sp s.pos (3 / 10), lerp1 sa s.ang (3 / 10)) := by
      rw [hstep]
    have hiter : iterRender c (now :: rest) =
        iterRender (interpolateFromNetwork c now) rest := by
      simp [iterRender]
    obtain ⟨ihA, ihB⟩ := ih (interpolateFromNetwork c now)
      (lerpV sp s.pos (3 / 10)) (lerp1 sa s.ang (3 / 10)) hh2 hs2
    constructor
    · rw [hiter, ihA]
      simp only [lerpV, List.length_cons, contract_step]
    · intro _
      cases rest with
      | nil =>
        rw [hiter]
        simp only [iterRender, List.foldl_nil, hstep, List.length_cons,
          List.length_nil]
        constructor
        · simp only [lerpV]
          obtain ⟨spx, spy, spz⟩ := sp
          simp only [lerp1, pow_succ, pow_zero]
          norm_num
          refine ⟨by ring, by ring, by ring⟩
        · simp only [lerp1, pow_succ, pow_zero]
          ring
      | cons now2 rest2 =>
        rw [hiter]
        obtain ⟨hB1, hB2⟩ := ihB (by simp)
        rw [hB1, hB2]
        simp only [lerpV, List.length_cons, contract_step]
        exact ⟨trivial, trivial⟩

/-- C9: feeding the reconciler a constant history (`k+1` copies of one
snapshot `s`) makes the interpolation target `s` itself, and the per-frame
smoothing pass (factor 0.3) drives the rendered pose along the straight
segment (resp. the slerp geodesic) toward `s`: after `n` frames the pose is
exactly `geomPos`/`geomAng` at `n`; each frame multiplies the remaining
offset by 7/10 componentwise (so the pose never overshoots past the
target); the squared distance shrinks by the factor 49/100 each frame,
hence is non-increasing (strictly decreasing while nonzero); and for every
positive tolerance a bounded number of frames brings and keeps both the
position and the orientation within it. -/
theorem interpolateFromNetwork_converges (s : Snap) (k : ℕ) (c : NetCar)
    (sp : Vec3) (sa : ℚ)
    (hh : c.netHistory = List.replicate (k + 1) s)
    (hs : c.netSmoothed = some (sp, sa)) (nows : List ℚ) :
    (iterRender c nows).netSmoothed =
      some (geomPos s.pos sp nows.length, geomAng s.ang sa nows.length) ∧
    (nows ≠ [] →
      (iterRender c nows).position = geomPos s.pos sp nows.length ∧
      (iterRender c nows).orientation = geomAng s.ang sa nows.length) ∧
    (∀ i : ℕ,
      (geomPos s.pos sp (i + 1)).x - s.pos.x =
        7 / 10 * ((geomPos s.pos sp i).x - s.pos.x) ∧
      (geomPos s.pos sp (i + 1)).y - s.pos.y =
        7 / 10 * ((geomPos s.pos sp i).y - s.pos.y) ∧
      (geomPos s.pos sp (i + 1)).z - s.pos.z =
        7 / 10 * ((geomPos s.pos sp i).z - s.pos.z) ∧
      geomAng s.ang sa (i + 1) - s.ang = 7 / 10 * (geomAng s.ang sa i - s.ang)) ∧
    (∀ i : ℕ, dist3Sq (geomPos s.pos sp (i + 1)) s.pos =
      49 / 100 * dist3Sq (geomPos s.pos sp i) s.pos) ∧
    (∀ i : ℕ,
      dist3Sq (geomPos s.pos sp (i + 1)) s.pos ≤
        dist3Sq (geomPos s.pos sp i) s.pos ∧
      |geomAng s.ang sa (i + 1) - s.ang| ≤ |geomAng s.ang sa i - s.ang|) ∧
    (∀ ε : ℚ, 0 < ε → ∃ N : ℕ, ∀ m : ℕ, N ≤ m →
      dist3Sq (geomPos s.pos sp m) s.pos ≤ ε ∧
      |geomAng s.ang sa m - s.ang| ≤ ε) := by
  have hr0 : (0 : ℚ) ≤ 7 / 10 := by norm_num
  have H := iterRender_replicate s k nows c sp sa hh hs
  have hstepAng : ∀ i : ℕ, geomAng s.ang sa (i + 1) - s.ang =
      7 / 10 * (geomAng s.ang sa i - s.ang) := by
    intro i
    simp only [geomAng, pow_succ]
    ring
  have hd : ∀ m : ℕ, dist3Sq (geomPos s.pos sp m) s.pos =
      (7 / 10) ^ m * ((7 / 10) ^ m * dist3Sq sp s.pos) := by
    intro m
    simp only [geomPos, dist3Sq]
    ring
  have ha : ∀ m : ℕ, |geomAng s.ang sa m - s.ang| =
      (7 / 10) ^ m * |sa - s.ang| := by
    intro m
    have h1 : geomAng s.ang sa m - s.ang = (7 / 10) ^ m * (sa - s.ang) := by
      simp only [geomAng]
      ring
    rw [h1, abs_mul, abs_of_nonneg (pow_nonneg hr0 m)]
  have h49 : ∀ i : ℕ, dist3Sq (geomPos s.pos sp (i + 1)) s.pos =
      49 / 100 * dist3Sq (geomPos s.pos sp i) s.pos := by
    intro i
    rw [hd (i + 1), hd i]
    ring
  refine ⟨?_, ?_, ?_, h49, ?_, ?_⟩
  · simpa [geomPos, geomAng] using H.1
  · intro hne
    simpa [geomPos, geomAng] using H.2 hne
  · intro i
    refine ⟨?_, ?_, ?_, hstepAng i⟩ <;> simp only [geomPos, pow_succ] <;> ring
  · intro i
    constructor
    · rw [h49 i]
      linarith [dist3Sq_nonneg (geomPos s.pos sp i) s.pos]
    · rw [ha (i + 1), ha i, pow_succ]
      nlinarith [mul_nonneg (pow_nonneg hr0 i) (abs_nonneg (sa - s.ang))]
  · intro ε hε
    have hB0 : (0 : ℚ) ≤ dist3Sq sp s.pos := dist3Sq_nonneg sp s.pos
    have hB1 : (0 : ℚ) ≤ |sa - s.ang| := abs_nonneg _
    have hBpos : (0 : ℚ) < dist3Sq sp s.pos + |sa - s.ang| + 1 := by linarith
    obtain ⟨N, hN⟩ := exists_pow_lt_of_lt_one
      (div_pos hε hBpos) (by norm_num : (7 / 10 : ℚ) < 1)
    refine ⟨N, fun m hm => ?_⟩
    have hmono : (7 / 10 : ℚ) ^ m ≤ (7 / 10) ^ N :=
      pow_le_pow_of_le_one hr0 (by norm_num) hm
    have hlt : (7 / 10 : ℚ) ^ m * (dist3Sq sp s.pos + |sa - s.ang| + 1) < ε := by
      have h2 : (7 / 10 : ℚ) ^ m < ε / (dist3Sq sp s.pos + |sa - s.ang| + 1) :=
        lt_of_le_of_lt hmono hN
      exact (lt_div_iff₀ hBpos).mp h2
    have hpm : (0 : ℚ) ≤ (7 / 10 : ℚ) ^ m := pow_nonneg hr0 m
    have hpm1 : (7 / 10 : ℚ) ^ m ≤ 1 := pow_le_one₀ hr0 (by norm_num)
    have hprod : (0 : ℚ) ≤ (7 / 10 : ℚ) ^ m * dist3Sq sp s.pos :=
      mul_nonneg hpm hB0
    have hprodA : (0 : ℚ) ≤ (7 / 10 : ℚ) ^ m * |sa - s.ang| :=
      mul_nonneg hpm hB1
    constructor
    · rw [hd m]
      nlinarith [hprod, hpm1, hlt, hprodA, hpm]
    · rw [ha m]
      nlinarith [hprod, hlt, hpm]

/-- Witness for C9: with three copies of `exSnap` (position `(10,0,0)`,
geodesic angle 4) and a smoothed pose starting at the origin, one frame
moves the rendered pose to `(3,0,0)` with angle `6/5`. -/
theorem interpolateFromNetwork_converges_witness :
    (iterRender exCarR [2000]).netSmoothed =
      some (⟨3, 0, 0⟩, 6 / 5) ∧
    (iterRender exCarR [2000]).position = (⟨3, 0, 0⟩ : Vec3) := by
  have H := interpolateFromNetwork_converges exSnap 2 exCarR ⟨0, 0, 0⟩ 0
    rfl rfl [2000]
  have h1 := H.1
  have h2 := (H.2.1 (by simp)).1
  rw [h1, h2]
  norm_num [geomPos, geomAng, exSnap]

end Ragetrack
